import Mathlib

/-!
# g_tracker: location resolution and record persistence

A shallow embedding of `script.js`: the in-process fallback of `storage`
(`set`/`get`/`list`/`delete` over the plain object `storage.data`), the
DMS-to-decimal conversion, the coordinate resolution of `handleFile`, the save
handler, `loadHistory` and `deleteRecord`.

Conventions of the embedding.
* JavaScript numbers are idealised as rationals (`ℚ`); clock readings are naturals.
* JavaScript strings are Lean strings (well-formed Unicode text).
* `storage.data` is the list of its own enumerable properties in `Object.keys`
  order; properties inherited from `Object.prototype` are modelled in `getProperty`.
* `window.storage` is absent throughout, so every operation takes its `else` branch.
* An `async` function is a function into `Except String`: `.error msg` is a
  rejection with `new Error(msg)`.
* `JSON.stringify`, `JSON.parse` and the conversion of a string to a number are
  built-ins of the host and are taken as a parameter (`Host`).
-/

namespace GTracker

/-! ## `storage.data` as a JavaScript object -/

/-- Own enumerable string-keyed properties of `storage.data`, in `Object.keys` order. -/
abbrev Store := List (String × String)

/-- Property names every plain object inherits from `Object.prototype`. -/
def objectPrototypeKeys : List String :=
  ["constructor", "__defineGetter__", "__defineSetter__", "hasOwnProperty",
   "__lookupGetter__", "__lookupSetter__", "isPrototypeOf", "propertyIsEnumerable",
   "toString", "valueOf", "__proto__", "toLocaleString"]

/-- Result of the property read `this.data[key]`. -/
inductive JSValue where
  | undefined
  | string (s : String)
  | inherited (name : String)
  deriving DecidableEq, Repr

/-- JavaScript truthiness (`ToBoolean`): `undefined` and `""` are falsy, a non-empty
string and any function or object are truthy. -/
def truthy : JSValue → Bool
  | .undefined => false
  | .string s => decide (s ≠ "")
  | .inherited _ => true

/-- `Object.keys(this.data)`. -/
def ownKeys (data : Store) : List String := data.map Prod.fst

/-- The read `this.data[key]`: the own property when there is one, otherwise the member
of `Object.prototype` of that name, otherwise `undefined`. -/
def getProperty (data : Store) (key : String) : JSValue :=
  match data.lookup key with
  | some v => .string v
  | none => if key ∈ objectPrototypeKeys then .inherited key else .undefined

/-- Array-index keys (canonical decimal numerals below `2^32 - 1`) are enumerated first,
in ascending numeric order, by `Object.keys`. -/
def arrayIndex (key : String) : Option Nat :=
  let n := key.data.foldl (fun n c => n * 10 + (c.toNat - 48)) 0
  if key.data ≠ [] ∧ key.data.all Char.isDigit = true ∧ Nat.repr n = key ∧ n < 4294967295
  then some n else none

/-- Creation of a new own property: an array index goes to its numeric place among the
array indices, before every other key; any other key goes last (insertion order). -/
def defineOwn (key value : String) : Store → Store
  | [] => [(key, value)]
  | (k, v) :: rest =>
    match arrayIndex key with
    | none => (k, v) :: defineOwn key value rest
    | some n =>
      match arrayIndex k with
      | some m => if n < m then (key, value) :: (k, v) :: rest
                  else (k, v) :: defineOwn key value rest
      | none => (key, value) :: (k, v) :: rest

/-- The assignment `this.data[key] = value` with a string `value`: an existing own
property is overwritten in place; `__proto__` with no own property of that name reaches
the setter of `Object.prototype`, which ignores a string; any other key is created. -/
def assign (data : Store) (key value : String) : Store :=
  if key ∈ ownKeys data then data.map (fun p => if p.1 = key then (p.1, value) else p)
  else if key = "__proto__" then data
  else defineOwn key value data

/-- The statement `delete this.data[key]`: removes the own property, if any. -/
def deleteProperty (data : Store) (key : String) : Store :=
  data.filter (fun p => decide (p.1 ≠ key))

/-- `k.startsWith(p)`. -/
def startsWith (k p : String) : Bool := p.data.isPrefixOf k.data

/-! ## `storage` (fallback branch) -/

/-- The object `{ key, value }` returned by `set`. -/
structure SetResult where
  key : String
  value : String
  deriving DecidableEq, Repr

/-- The object `{ key, value }` returned by `get`. -/
structure GetResult where
  key : String
  value : JSValue
  deriving DecidableEq, Repr

/-- The object `{ keys }` returned by `list`. -/
structure ListResult where
  keys : List String
  deriving DecidableEq, Repr

/-- The object `{ key, deleted }` returned by `delete`. -/
structure DeleteResult where
  key : String
  deleted : Bool
  deriving DecidableEq, Repr

/-- `storage.set(key, value)`: `this.data[key] = value; return { key, value }`. -/
def storage.set (data : Store) (key value : String) : Except String (Store × SetResult) :=
  .ok (assign data key value, { key := key, value := value })

/-- `storage.get(key)`: `if (this.data[key]) return { key, value: this.data[key] };`
then `throw new Error('Key not found')`. -/
def storage.get (data : Store) (key : String) : Except String GetResult :=
  if truthy (getProperty data key) then .ok { key := key, value := getProperty data key }
  else .error "Key not found"

/-- `storage.list(p)`: `Object.keys(this.data).filter(k => k.startsWith(p))`. -/
def storage.list (data : Store) (p : String) : Except String ListResult :=
  .ok { keys := (ownKeys data).filter (fun k => startsWith k p) }

/-- `storage.delete(key)`: `delete this.data[key]; return { key, deleted: true }`. -/
def storage.delete (data : Store) (key : String) : Except String (Store × DeleteResult) :=
  .ok (deleteProperty data key, { key := key, deleted := true })

/-! ## Coordinates -/

/-- `convertDMSToDD(degrees, minutes, seconds, direction)`. -/
def convertDMSToDD (degrees minutes seconds : ℚ) (direction : String) : ℚ :=
  let dd := degrees + minutes / 60 + seconds / (60 * 60)
  if direction = "S" ∨ direction = "W" then dd * -1 else dd

/-- The object stored in `currentLocation`. -/
structure Location where
  latitude : ℚ
  longitude : ℚ
  deriving DecidableEq, Repr

/-- Modelled from the spec: the values `EXIF.getTag` yields for the four GPS tags (the
EXIF reader is not part of the source). A coordinate tag is a 3-element numeric sequence
(degrees, minutes, seconds), a reference tag a single-character direction string; an
absent tag is `undefined` (`none`). -/
structure GPSTags where
  GPSLatitude : Option (ℚ × ℚ × ℚ)
  GPSLongitude : Option (ℚ × ℚ × ℚ)
  GPSLatitudeRef : Option Char
  GPSLongitudeRef : Option Char
  deriving DecidableEq, Repr

/-- Outcome of the device location capability: `navigator.geolocation` is falsy, or
`getCurrentPosition` calls its error callback, or its success callback with a position. -/
inductive DeviceOutcome where
  | unsupported
  | failed
  | position (latitude longitude : ℚ)
  deriving DecidableEq, Repr

/-- The `source` argument of `displayLocation`. -/
inductive Source where
  | gps
  | device
  deriving DecidableEq, Repr

/-- What one run of the resolution did: the value `displayLocation` wrote to
`currentLocation` (`none` when `displayLocation` was not called), the source it was
called with, and whether `getCurrentPosition` was invoked. -/
structure Resolution where
  location : Option Location
  source : Option Source
  queried : Bool
  deriving DecidableEq, Repr

/-- `displayLocation(lat, lon, source)`, restricted to its effect on `currentLocation`. -/
def displayLocation (lat lon : ℚ) (source : Source) (queried : Bool) : Resolution :=
  { location := some { latitude := lat, longitude := lon }, source := some source,
    queried := queried }

/-- The callback `handleFile` passes to `EXIF.getData` (the coordinate resolution). -/
def handleFile (tags : GPSTags) (device : DeviceOutcome) : Resolution :=
  match tags.GPSLatitude, tags.GPSLongitude, tags.GPSLatitudeRef, tags.GPSLongitudeRef with
  | some latArr, some lonArr, some latRef, some lonRef =>
    let lat := convertDMSToDD latArr.1 latArr.2.1 latArr.2.2 (String.singleton latRef)
    let lon := convertDMSToDD lonArr.1 lonArr.2.1 lonArr.2.2 (String.singleton lonRef)
    displayLocation lat lon .gps false
  | _, _, _, _ =>
    match device with
    | .unsupported => { location := none, source := none, queried := false }
    | .failed => { location := none, source := none, queried := true }
    | .position lat lon => displayLocation lat lon .device true

/-! ## Records, parsed values and the host's built-ins -/

/-- The record object built by the save handler. -/
structure Record where
  id : String
  image : String
  latitude : ℚ
  longitude : ℚ
  timestamp : Int
  deriving DecidableEq, Repr

/-- A value `JSON.parse` returns: `null`, a boolean, a number, a string, an array or an
object (its members in property order). -/
inductive JsonValue where
  | null
  | bool (b : Bool)
  | number (x : ℚ)
  | string (s : String)
  | array (items : List JsonValue)
  | object (members : List (String × JsonValue))

/-- A JavaScript number as a comparator produces it: `NaN` or a numeric value. -/
inductive JSNumber where
  | nan
  | finite (x : ℚ)
  deriving DecidableEq, Repr

/-- The built-ins of the host the code relies on: `JSON.stringify` on a record object;
`JSON.parse`, where `none` stands for a thrown `SyntaxError`; and `ToNumber` of a string
or of an array (the number its string form denotes, `NaN` when it denotes none). -/
structure Host where
  stringify : Record → String
  parse : String → Option JsonValue
  toNumber : JsonValue → JSNumber

/-- The record object `{ id, image, latitude, longitude, timestamp }` as a value. -/
def Record.toJson (r : Record) : JsonValue :=
  .object [("id", .string r.id), ("image", .string r.image), ("latitude", .number r.latitude),
    ("longitude", .number r.longitude), ("timestamp", .number (r.timestamp : ℚ))]

/-- The property read `v.name` for one of the names `loadHistory` reads (`timestamp`,
`image`, `latitude`, `longitude`, `id`), which no prototype defines: a `TypeError` on
`null` (outer `none`), the member of an object if it has one, `undefined` (inner `none`)
otherwise. -/
def readField (v : JsonValue) (name : String) : Option (Option JsonValue) :=
  match v with
  | .null => none
  | .object members => some (members.lookup name)
  | _ => some none

mutual
/-- Whether `ToPrimitive` succeeds on a parsed value. A primitive is its own result; an
object yields `"[object Object]"` through the inherited `toString`, unless a member named
`toString` shadows it (a parsed member is never callable, and the inherited `valueOf`
returns the object itself), in which case a `TypeError` is thrown; an array is joined,
which converts its elements in turn. -/
def toPrimitiveOk : JsonValue → Bool
  | .array items => allPrimitiveOk items
  | .object members => !(members.any (fun m => m.1 == "toString"))
  | _ => true
/-- Whether `ToPrimitive` succeeds on every value of a list. -/
def allPrimitiveOk : List JsonValue → Bool
  | [] => true
  | v :: vs => toPrimitiveOk v && allPrimitiveOk vs
end

/-- `ToNumber` of the result of a property read (`none` is `undefined`); the outer
`none` of the result is a thrown `TypeError`. -/
def toNumber (H : Host) : Option JsonValue → Option JSNumber
  | none => some .nan
  | some .null => some (.finite 0)
  | some (.bool b) => some (.finite (if b then 1 else 0))
  | some (.number x) => some (.finite x)
  | some (.string s) => some (H.toNumber (.string s))
  | some (.array items) =>
    if toPrimitiveOk (.array items) then some (H.toNumber (.array items)) else none
  | some (.object members) =>
    if toPrimitiveOk (.object members) then some .nan else none

/-- The subtraction `x - y` of two numbers. -/
def JSNumber.sub : JSNumber → JSNumber → JSNumber
  | .finite x, .finite y => .finite (x - y)
  | _, _ => .nan

/-- The value `Array.prototype.sort` takes from a comparator result: `NaN` counts as `+0`. -/
def JSNumber.sortValue : JSNumber → ℚ
  | .nan => 0
  | .finite x => x

/-! ## The save handler -/

/-- The globals `currentImage` and `currentLocation` (`none` is `null`). -/
structure Capture where
  currentImage : Option String
  currentLocation : Option Location
  deriving DecidableEq, Repr

/-- Status shown by the save handler. -/
inductive SaveStatus where
  | notReady
  | saved
  | failed (message : String)
  deriving DecidableEq, Repr

/-- The record the save handler builds; `now1` and `now2` are the two `Date.now()`
readings, the first rendered by `toString()` as a decimal numeral. -/
def buildRecord (image : String) (loc : Location) (now1 now2 : Nat) : Record :=
  { id := Nat.repr now1, image := image, latitude := loc.latitude,
    longitude := loc.longitude, timestamp := (now2 : Int) }

/-- The click handler of `saveBtn`. -/
def saveBtnClick (H : Host) (cap : Capture) (data : Store) (now1 now2 : Nat) :
    Store × SaveStatus :=
  match cap.currentImage, cap.currentLocation with
  | some image, some loc =>
    if image = "" then (data, .notReady)
    else
      let record := buildRecord image loc now1 now2
      match storage.set data ("garbage:" ++ record.id) (H.stringify record) with
      | .ok (data', _) => (data', .saved)
      | .error msg => (data, .failed msg)
  | _, _ => (data, .notReady)

/-! ## `loadHistory` and `deleteRecord` -/

/-- Body of the inner `try` of `loadHistory` for one key: the value pushed onto
`records`, or `none` when nothing is pushed (`get` threw, or `JSON.parse` threw, both
caught by the inner `catch`). An inherited member of `Object.prototype` is a function or
an object, whose string form is not JSON text. -/
def loadRecord (H : Host) (data : Store) (key : String) : Option JsonValue :=
  match storage.get data key with
  | .error _ => none
  | .ok item =>
    if truthy item.value then
      match item.value with
      | .string s => H.parse s
      | _ => none
    else none

/-- The array `records` after the `for` loop. -/
def collectRecords (H : Host) (data : Store) (keys : List String) : List JsonValue :=
  keys.filterMap (loadRecord H data)

/-- `ToNumber(v.timestamp)`; `none` is a thrown `TypeError`. -/
def timestampNumber (H : Host) (v : JsonValue) : Option JSNumber :=
  match readField v "timestamp" with
  | none => none
  | some field => toNumber H field

/-- The comparator `(a, b) => b.timestamp - a.timestamp`; `none` is a thrown
`TypeError`. -/
def compareFn (H : Host) (a b : JsonValue) : Option JSNumber :=
  match timestampNumber H b, timestampNumber H a with
  | some x, some y => some (x.sub y)
  | _, _ => none

/-- Insertion of `a` in front of the first element it does not have to follow. -/
def orderedInsert (H : Host) (a : JsonValue) : List JsonValue → Option (List JsonValue)
  | [] => some [a]
  | b :: l =>
    match compareFn H a b with
    | none => none
    | some c =>
      if c.sortValue ≤ 0 then some (a :: b :: l)
      else (orderedInsert H a l).map (fun l' => b :: l')

/-- `records.sort(compareFn)`: a stable sort (insertion sort stands for the engine's
algorithm); `none` when the comparator throws. An array of fewer than two elements is
returned without any call of the comparator. When the comparator is not consistent (it
yields `NaN` for some pairs) ECMAScript leaves the order to the engine; insertion keeps
an element in place against a neighbour it compares as `NaN`, as the engines do. -/
def sortRecords (H : Host) : List JsonValue → Option (List JsonValue)
  | [] => some []
  | a :: l =>
    match sortRecords H l with
    | none => none
    | some s => orderedInsert H a s

/-- Rendering of one entry by the template of `loadHistory`, which reads `image`,
`timestamp`, `latitude`, `longitude` and `id` and converts each to a string or a number:
a `TypeError` (`none`) on `null` and on a field whose `ToPrimitive` throws; otherwise the
entry is displayed (an absent field shows as `undefined`, `Invalid Date` or `NaN`). -/
def renderRecord (v : JsonValue) : Option JsonValue :=
  match readField v "image", readField v "timestamp", readField v "latitude",
    readField v "longitude", readField v "id" with
  | some image, some timestamp, some latitude, some longitude, some id =>
    if [image, timestamp, latitude, longitude, id].all
        (fun field => match field with
          | none => true
          | some w => toPrimitiveOk w)
    then some v else none
  | _, _, _, _, _ => none

/-- `records.map(record => ...)`: throws as soon as one rendering throws. -/
def renderAll : List JsonValue → Option (List JsonValue)
  | [] => some []
  | v :: l =>
    match renderRecord v with
    | none => none
    | some r => (renderAll l).map (fun rs => r :: rs)

/-- What `loadHistory` leaves in `historyContainer`: the empty state, the grid of the
entries in the order displayed, or the error state. -/
inductive HistoryView where
  | empty
  | grid (records : List JsonValue)
  | error

/-- `loadHistory()`. -/
def loadHistory (H : Host) (data : Store) : HistoryView :=
  match storage.list data "garbage:" with
  | .error _ => .error
  | .ok result =>
    if result.keys.length = 0 then .empty
    else
      match sortRecords H (collectRecords H data result.keys) with
      | none => .error
      | some records =>
        if records.length = 0 then .empty
        else
          match renderAll records with
          | none => .error
          | some items => .grid items

/-- Status shown by `deleteRecord`. -/
inductive DeleteStatus where
  | cancelled
  | deleted
  | failed
  deriving DecidableEq, Repr

/-- `deleteRecord(id)`; `confirmed` is the answer to `confirm(...)`. Returns the store,
the view left by the `loadHistory` it triggers (if it got there) and the status. -/
def deleteRecord (H : Host) (data : Store) (id : String) (confirmed : Bool) :
    Store × Option HistoryView × DeleteStatus :=
  if confirmed then
    match storage.delete data ("garbage:" ++ id) with
    | .ok (data', _) => (data', some (loadHistory H data'), .deleted)
    | .error _ => (data, none, .failed)
  else (data, none, .cancelled)

/-! ## Auxiliary definitions and a worked example -/

/-- Value of a decimal digit string, most significant digit first. -/
def decimalValue (cs : List Char) : Nat :=
  cs.foldl (fun n c => n * 10 + (c.toNat - 48)) 0

/-- A record saved at clock reading `100`. -/
def record100 : Record :=
  { id := "100", image := "data:,a", latitude := 1, longitude := 2, timestamp := 100 }

/-- A record saved at clock reading `300`. -/
def record300 : Record :=
  { id := "300", image := "data:,b", latitude := 3, longitude := -4, timestamp := 300 }

/-- A record saved at clock reading `200`. -/
def record200 : Record :=
  { id := "200", image := "data:,c", latitude := 0, longitude := 0, timestamp := 200 }

/-- A second record saved at clock reading `100`, with another image. -/
def record100b : Record :=
  { id := "100", image := "data:,b", latitude := 1, longitude := 2, timestamp := 100 }

/-- `JSON.stringify(record100)`. -/
def payload100 : String :=
  "\x7b\"id\":\"100\",\"image\":\"data:,a\",\"latitude\":1,\"longitude\":2,\"timestamp\":100\x7d"

/-- `JSON.stringify(record300)`. -/
def payload300 : String :=
  "\x7b\"id\":\"300\",\"image\":\"data:,b\",\"latitude\":3,\"longitude\":-4,\"timestamp\":300\x7d"

/-- `JSON.stringify(record200)`. -/
def payload200 : String :=
  "\x7b\"id\":\"200\",\"image\":\"data:,c\",\"latitude\":0,\"longitude\":0,\"timestamp\":200\x7d"

/-- `JSON.stringify(record100b)`. -/
def payload100b : String :=
  "\x7b\"id\":\"100\",\"image\":\"data:,b\",\"latitude\":1,\"longitude\":2,\"timestamp\":100\x7d"

/-- The example records with their JSON texts. -/
def samplePayloads : List (Record × String) :=
  [(record100, payload100), (record300, payload300), (record200, payload200),
   (record100b, payload100b)]

/-- The host restricted to the texts of the examples: `stringify` is tabulated on the
four example records; `parse` accepts their texts, the text `null` and the text of the
empty object, and throws on any other text. On the texts used below it agrees with
`JSON.parse`. No example converts a string or an array to a number. -/
def sampleHost : Host where
  stringify r := (samplePayloads.lookup r).getD ""
  parse s :=
    if s = "null" then some .null
    else if s = "\x7b\x7d" then some (.object [])
    else (samplePayloads.find? (fun p => decide (p.2 = s))).map (fun p => p.1.toJson)
  toNumber _ := .nan

/-- A store holding three records, a key of another namespace and one payload that is
not JSON text. -/
def sampleStore : Store :=
  [("garbage:100", payload100), ("settings:theme", "dark"), ("garbage:300", payload300),
   ("garbage:bad", "not json"), ("garbage:200", payload200)]

/-- A store holding one record and one payload whose JSON text is `null`. -/
def nullPayloadStore : Store :=
  [("garbage:100", payload100), ("garbage:7", "null")]

/-- A store holding the records of readings 100 and 300 with, between them, a payload
whose JSON text is the empty object. -/
def emptyObjectStore : Store :=
  [("garbage:100", payload100), ("garbage:7", "\x7b\x7d"), ("garbage:300", payload300)]

/-! ## Properties of the object model -/

theorem lookup_map_overwrite (data : Store) (key value : String) (h : key ∈ ownKeys data) :
    (data.map (fun p => if p.1 = key then (p.1, value) else p)).lookup key = some value := by
  induction data with
  | nil => simp [ownKeys] at h
  | cons p rest ih =>
    obtain ⟨k, v⟩ := p
    by_cases hk : k = key
    · subst hk
      simp only [List.map_cons, ↓reduceIte, List.lookup_cons, beq_self_eq_true]
    · have hmem : key ∈ ownKeys rest := by
        simp only [ownKeys, List.map_cons, List.mem_cons] at h
        rcases h with h | h
        · exact absurd h.symm hk
        · exact h
      have hne : (key == k) = false := by simpa using fun h => hk h.symm
      simp only [List.map_cons, hk, ↓reduceIte, List.lookup_cons, hne, ih hmem]

theorem lookup_map_overwrite_other (data : Store) (key value k : String) (h : k ≠ key) :
    (data.map (fun p => if p.1 = key then (p.1, value) else p)).lookup k = data.lookup k := by
  induction data with
  | nil => rfl
  | cons p rest ih =>
    obtain ⟨k', v⟩ := p
    by_cases hk : k' = key
    · subst hk
      have hne : (k == k') = false := by simpa using h
      simp only [List.map_cons, ↓reduceIte, List.lookup_cons, hne, ih]
    · simp only [List.map_cons, hk, ↓reduceIte, List.lookup_cons, ih]

theorem lookup_defineOwn_self (data : Store) (key value : String) (h : key ∉ ownKeys data) :
    (defineOwn key value data).lookup key = some value := by
  induction data with
  | nil => simp [defineOwn, List.lookup]
  | cons p rest ih =>
    obtain ⟨k, v⟩ := p
    have hk : key ≠ k := by
      intro e; apply h; simp [ownKeys, e]
    have hrest : key ∉ ownKeys rest := by
      intro e; apply h; simp only [ownKeys, List.map_cons, List.mem_cons]; exact Or.inr e
    have hne : (key == k) = false := by simpa using hk
    unfold defineOwn
    split
    · simp [List.lookup, hne, ih hrest]
    · split
      · split
        · simp [List.lookup]
        · simp [List.lookup, hne, ih hrest]
      · simp [List.lookup]

theorem lookup_defineOwn_other (data : Store) (key value k : String) (h : k ≠ key) :
    (defineOwn key value data).lookup k = data.lookup k := by
  have hne : (k == key) = false := by simpa using h
  induction data with
  | nil => simp [defineOwn, List.lookup, hne]
  | cons p rest ih =>
    obtain ⟨k', v⟩ := p
    unfold defineOwn
    split
    · simp only [List.lookup]; rw [ih]
    · split
      · split
        · simp [List.lookup, hne]
        · simp only [List.lookup]; rw [ih]
      · simp [List.lookup, hne]

theorem ownKeys_defineOwn (data : Store) (key value k : String) :
    k ∈ ownKeys (defineOwn key value data) ↔ k = key ∨ k ∈ ownKeys data := by
  induction data with
  | nil => simp [defineOwn, ownKeys]
  | cons p rest ih =>
    obtain ⟨k', v⟩ := p
    have ih' : k ∈ List.map Prod.fst (defineOwn key value rest) ↔
        k = key ∨ k ∈ List.map Prod.fst rest := ih
    unfold defineOwn
    split
    · simp only [ownKeys, List.map_cons, List.mem_cons, ih']; tauto
    · split
      · split
        · simp [ownKeys]
        · simp only [ownKeys, List.map_cons, List.mem_cons, ih']; tauto
      · simp [ownKeys]

theorem lookup_assign_self (data : Store) (key value : String)
    (h : key ≠ "__proto__" ∨ key ∈ ownKeys data) :
    (assign data key value).lookup key = some value := by
  unfold assign
  by_cases hown : key ∈ ownKeys data
  · rw [if_pos hown]; exact lookup_map_overwrite data key value hown
  · have hp : key ≠ "__proto__" := h.resolve_right hown
    rw [if_neg hown, if_neg hp]; exact lookup_defineOwn_self data key value hown

theorem lookup_assign_other (data : Store) (key value k : String) (h : k ≠ key) :
    (assign data key value).lookup k = data.lookup k := by
  unfold assign
  split
  · exact lookup_map_overwrite_other data key value k h
  · split
    · rfl
    · exact lookup_defineOwn_other data key value k h

theorem ownKeys_map_overwrite (data : Store) (key value : String) :
    ownKeys (data.map (fun p => if p.1 = key then (p.1, value) else p)) = ownKeys data := by
  induction data with
  | nil => rfl
  | cons p rest ih =>
    have ih' : List.map Prod.fst (rest.map (fun p => if p.1 = key then (p.1, value) else p)) =
        List.map Prod.fst rest := ih
    by_cases hk : p.1 = key
    · simp only [ownKeys, List.map_cons, hk, ↓reduceIte, ih']
    · simp only [ownKeys, List.map_cons, hk, ↓reduceIte, ih']

theorem ownKeys_assign (data : Store) (key value k : String)
    (h : key ≠ "__proto__" ∨ key ∈ ownKeys data) :
    k ∈ ownKeys (assign data key value) ↔ k = key ∨ k ∈ ownKeys data := by
  unfold assign
  by_cases hown : key ∈ ownKeys data
  · rw [if_pos hown, ownKeys_map_overwrite]
    constructor
    · exact Or.inr
    · rintro (rfl | h')
      · exact hown
      · exact h'
  · have hp : key ≠ "__proto__" := h.resolve_right hown
    rw [if_neg hown, if_neg hp]; exact ownKeys_defineOwn data key value k

theorem lookup_deleteProperty_self (data : Store) (key : String) :
    (deleteProperty data key).lookup key = none := by
  induction data with
  | nil => rfl
  | cons p rest ih =>
    obtain ⟨k, v⟩ := p
    by_cases hk : k = key
    · subst hk; simpa [deleteProperty] using ih
    · have hne : (key == k) = false := by simpa using fun h => hk h.symm
      have ih' : List.lookup key (List.filter (fun p => decide (p.1 ≠ key)) rest) = none := ih
      simp only [deleteProperty, ne_eq, hk, not_false_eq_true, decide_True, List.filter_cons_of_pos,
        List.lookup_cons, hne]
      simpa using ih'

theorem lookup_deleteProperty_other (data : Store) (key k : String) (h : k ≠ key) :
    (deleteProperty data key).lookup k = data.lookup k := by
  induction data with
  | nil => rfl
  | cons p rest ih =>
    obtain ⟨k', v⟩ := p
    have ih' : List.lookup k (List.filter (fun p => decide (p.1 ≠ key)) rest) =
        List.lookup k rest := ih
    by_cases hk : k' = key
    · subst hk
      have hne : (k == k') = false := by simpa using h
      simp only [deleteProperty, ne_eq, not_true_eq_false, decide_False, Bool.false_eq_true,
        not_false_eq_true, List.filter_cons_of_neg, List.lookup_cons, hne]
      simpa using ih'
    · simp only [deleteProperty, ne_eq, hk, not_false_eq_true, decide_True,
        List.filter_cons_of_pos, List.lookup_cons]
      split
      · rfl
      · simpa using ih'

theorem ownKeys_deleteProperty (data : Store) (key : String) :
    ownKeys (deleteProperty data key) = (ownKeys data).filter (fun k => decide (k ≠ key)) := by
  unfold ownKeys deleteProperty
  rw [List.filter_map]
  rfl

theorem deleteProperty_of_not_mem (data : Store) (key : String) (h : key ∉ ownKeys data) :
    deleteProperty data key = data := by
  unfold deleteProperty
  rw [List.filter_eq_self]
  intro p hp
  have : p.1 ≠ key := by
    intro e; apply h; rw [← e]; exact List.mem_map_of_mem Prod.fst hp
  simpa using this

/-! ## Properties of keys -/

theorem startsWith_iff (k p : String) : startsWith k p = true ↔ p.data <+: k.data := by
  unfold startsWith; exact List.isPrefixOf_iff_prefix

theorem startsWith_garbage (id : String) : startsWith ("garbage:" ++ id) "garbage:" = true := by
  rw [startsWith_iff, String.data_append]; exact List.prefix_append _ _

theorem garbage_not_inherited (id : String) : "garbage:" ++ id ∉ objectPrototypeKeys := by
  intro h
  have hall : ∀ s ∈ objectPrototypeKeys, s.data.head? ≠ some 'g' := by decide
  apply hall _ h
  rw [String.data_append]; rfl

theorem garbage_ne_proto (id : String) : "garbage:" ++ id ≠ "__proto__" := by
  intro h
  apply garbage_not_inherited id
  rw [h]; decide

theorem garbage_injective (a b : String) (h : "garbage:" ++ a = "garbage:" ++ b) : a = b := by
  have hd := congrArg String.data h
  rw [String.data_append, String.data_append] at hd
  exact String.ext (List.append_cancel_left hd)

theorem foldl_toDigitsCore (fuel : Nat) : ∀ (n : Nat) (ds : List Char), n < fuel →
    (Nat.toDigitsCore 10 fuel n ds).foldl (fun n c => n * 10 + (c.toNat - 48)) 0 =
      ds.foldl (fun n c => n * 10 + (c.toNat - 48)) n := by
  induction fuel with
  | zero => intro n ds h; omega
  | succ fuel ih =>
    intro n ds h
    have hd : (Nat.digitChar (n % 10)).toNat - 48 = n % 10 := by
      have hlt : n % 10 < 10 := Nat.mod_lt _ (by decide)
      generalize n % 10 = d at hlt
      interval_cases d <;> rfl
    unfold Nat.toDigitsCore
    by_cases h0 : n / 10 = 0
    · simp only [h0, ↓reduceIte, List.foldl_cons, Nat.zero_mul, Nat.zero_add, hd]
      have : n % 10 = n := Nat.mod_eq_of_lt (by omega)
      rw [this]
    · simp only [h0, ↓reduceIte]
      rw [ih (n / 10) _ (by omega)]
      simp only [List.foldl_cons, hd]
      have : n / 10 * 10 + n % 10 = n := by omega
      rw [this]

theorem decimalValue_repr (n : Nat) : decimalValue (Nat.repr n).data = n := by
  unfold decimalValue Nat.repr Nat.toDigits
  simp only [List.asString]
  rw [foldl_toDigitsCore (n + 1) n [] (by omega)]
  rfl

theorem repr_injective (a b : Nat) (h : Nat.repr a = Nat.repr b) : a = b := by
  rw [← decimalValue_repr a, ← decimalValue_repr b, h]

/-! ## Properties of the store operations -/

theorem getProperty_of_lookup_eq (d₁ d₂ : Store) (k : String) (h : d₁.lookup k = d₂.lookup k) :
    getProperty d₁ k = getProperty d₂ k := by
  unfold getProperty; rw [h]

theorem get_of_lookup_nonempty (data : Store) (key value : String)
    (h : data.lookup key = some value) (hv : value ≠ "") :
    storage.get data key = .ok { key := key, value := .string value } := by
  simp [storage.get, getProperty, h, truthy, hv]

theorem get_after_set (data : Store) (key value : String) (hk : key ≠ "__proto__")
    (hv : value ≠ "") :
    storage.get (assign data key value) key = .ok { key := key, value := .string value } :=
  get_of_lookup_nonempty _ _ _ (lookup_assign_self data key value (Or.inl hk)) hv

theorem get_absent (data : Store) (key : String) (h : data.lookup key = none)
    (hp : key ∉ objectPrototypeKeys) : storage.get data key = .error "Key not found" := by
  simp [storage.get, getProperty, h, hp, truthy]

theorem loadRecord_of_lookup_eq (H : Host) (d₁ d₂ : Store) (k : String)
    (h : d₁.lookup k = d₂.lookup k) : loadRecord H d₁ k = loadRecord H d₂ k := by
  unfold loadRecord storage.get
  rw [getProperty_of_lookup_eq d₁ d₂ k h]

theorem loadRecord_of_lookup_nonempty (H : Host) (data : Store) (key value : String)
    (h : data.lookup key = some value) (hv : value ≠ "") :
    loadRecord H data key = H.parse value := by
  unfold loadRecord
  rw [get_of_lookup_nonempty data key value h hv]
  simp [truthy, hv]

/-! ## Properties of sorting and rendering -/

theorem toJson_injective (a b : Record) (h : a.toJson = b.toJson) : a = b := by
  obtain ⟨i, im, la, lo, t⟩ := a
  obtain ⟨i', im', la', lo', t'⟩ := b
  simp only [Record.toJson, JsonValue.object.injEq, List.cons.injEq, Prod.mk.injEq,
    JsonValue.string.injEq, JsonValue.number.injEq, true_and, and_true, Int.cast_inj] at h
  obtain ⟨h1, h2, h3, h4, h5⟩ := h
  subst h1 h2 h3 h4 h5
  rfl

theorem mem_map_toJson (r : Record) (rs : List Record) (h : r.toJson ∈ rs.map Record.toJson) :
    r ∈ rs := by
  obtain ⟨x, hx, hxe⟩ := List.mem_map.mp h
  rw [← toJson_injective x r hxe]
  exact hx

theorem timestampNumber_toJson (H : Host) (r : Record) :
    timestampNumber H r.toJson = some (.finite (r.timestamp : ℚ)) := by
  simp [timestampNumber, readField, Record.toJson, List.lookup, toNumber]

theorem compareFn_toJson (H : Host) (a b : Record) :
    compareFn H a.toJson b.toJson =
      some (.finite ((b.timestamp : ℚ) - (a.timestamp : ℚ))) := by
  simp [compareFn, timestampNumber_toJson, JSNumber.sub]

theorem orderedInsert_record (H : Host) (a : Record) (l : List Record) :
    orderedInsert H a.toJson (l.map Record.toJson) =
      some ((List.orderedInsert (fun x y : Record => y.timestamp ≤ x.timestamp) a l).map
        Record.toJson) := by
  induction l with
  | nil => rfl
  | cons b l ih =>
    simp only [List.map_cons, orderedInsert, compareFn_toJson, JSNumber.sortValue,
      List.orderedInsert, sub_nonpos, Int.cast_le]
    by_cases hc : b.timestamp ≤ a.timestamp
    · simp [hc]
    · simp [hc, ih]

theorem sortRecords_record (H : Host) (l : List Record) :
    sortRecords H (l.map Record.toJson) =
      some ((l.insertionSort (fun x y : Record => y.timestamp ≤ x.timestamp)).map
        Record.toJson) := by
  induction l with
  | nil => rfl
  | cons a l ih =>
    simp only [List.map_cons, sortRecords, ih, List.insertionSort]
    exact orderedInsert_record H a _

theorem renderRecord_toJson (r : Record) : renderRecord r.toJson = some r.toJson := by
  simp [renderRecord, readField, Record.toJson, List.lookup, toPrimitiveOk]

theorem renderAll_record (l : List Record) :
    renderAll (l.map Record.toJson) = some (l.map Record.toJson) := by
  induction l with
  | nil => rfl
  | cons a l ih => simp [renderAll, renderRecord_toJson, ih]

theorem insertionSort_newest_perm (l : List Record) :
    (l.insertionSort (fun x y : Record => y.timestamp ≤ x.timestamp)).Perm l :=
  List.perm_insertionSort _ l

theorem insertionSort_newest_sorted (l : List Record) :
    (l.insertionSort (fun x y : Record => y.timestamp ≤ x.timestamp)).Sorted
      (fun x y : Record => y.timestamp ≤ x.timestamp) := by
  haveI : IsTotal Record (fun x y : Record => y.timestamp ≤ x.timestamp) :=
    ⟨fun a b => le_total b.timestamp a.timestamp⟩
  haveI : IsTrans Record (fun x y : Record => y.timestamp ≤ x.timestamp) :=
    ⟨fun a b c hab hbc => le_trans hbc hab⟩
  exact List.sorted_insertionSort _ l

theorem loadHistory_of_records (H : Host) (data : Store) (rs : List Record)
    (h : collectRecords H data ((ownKeys data).filter (fun k => startsWith k "garbage:")) =
      rs.map Record.toJson) :
    loadHistory H data =
      if rs = [] then .empty
      else .grid ((rs.insertionSort (fun x y : Record => y.timestamp ≤ x.timestamp)).map
        Record.toJson) := by
  unfold loadHistory storage.list
  simp only
  by_cases hk : ((ownKeys data).filter (fun k => startsWith k "garbage:")).length = 0
  · rw [if_pos hk]
    have hnil : (ownKeys data).filter (fun k => startsWith k "garbage:") = [] :=
      List.length_eq_zero.mp hk
    rw [hnil] at h
    have : rs = [] := by
      cases rs with
      | nil => rfl
      | cons a l => simp [collectRecords] at h
    rw [if_pos this]
  · rw [if_neg hk, h, sortRecords_record]
    simp only [List.length_map, List.length_insertionSort]
    by_cases hr : rs = []
    · subst hr; simp
    · have : rs.length ≠ 0 := fun e => hr (List.length_eq_zero.mp e)
      rw [if_neg this, if_neg hr, renderAll_record]

theorem orderedInsert_perm (H : Host) (a : JsonValue) : ∀ (l l' : List JsonValue),
    orderedInsert H a l = some l' → l'.Perm (a :: l) := by
  intro l
  induction l with
  | nil => intro l' h; simp [orderedInsert] at h; subst h; exact List.Perm.refl _
  | cons b l ih =>
    intro l' h
    unfold orderedInsert at h
    cases hc : compareFn H a b with
    | none => rw [hc] at h; simp at h
    | some c =>
      rw [hc] at h
      by_cases hle : c.sortValue ≤ 0
      · simp [hle] at h; subst h; exact List.Perm.refl _
      · simp only [hle, ↓reduceIte, Option.map_eq_some'] at h
        obtain ⟨t, ht, rfl⟩ := h
        exact ((ih t ht).cons b).trans (List.Perm.swap a b l)

theorem sortRecords_perm (H : Host) : ∀ (l s : List JsonValue),
    sortRecords H l = some s → s.Perm l := by
  intro l
  induction l with
  | nil => intro s h; simp [sortRecords] at h; subst h; exact List.Perm.refl _
  | cons a l ih =>
    intro s h
    unfold sortRecords at h
    cases hs : sortRecords H l with
    | none => rw [hs] at h; simp at h
    | some t =>
      rw [hs] at h
      exact (orderedInsert_perm H a t s h).trans ((ih t hs).cons a)

theorem renderRecord_eq (v w : JsonValue) (h : renderRecord v = some w) : w = v := by
  unfold renderRecord at h
  split at h
  · split at h
    · exact (Option.some.inj h).symm
    · simp at h
  · simp at h

theorem renderAll_eq : ∀ (l items : List JsonValue), renderAll l = some items → items = l := by
  intro l
  induction l with
  | nil => intro items h; simp [renderAll] at h; exact h
  | cons v l ih =>
    intro items h
    unfold renderAll at h
    cases hv : renderRecord v with
    | none => rw [hv] at h; simp at h
    | some w =>
      rw [hv] at h
      simp only [Option.map_eq_some'] at h
      obtain ⟨t, ht, rfl⟩ := h
      rw [renderRecord_eq v w hv, ih t ht]

theorem renderAll_null (l : List JsonValue) (h : JsonValue.null ∈ l) : renderAll l = none := by
  induction l with
  | nil => simp at h
  | cons v l ih =>
    rcases List.mem_cons.mp h with h' | h'
    · subst h'; rfl
    · unfold renderAll
      cases renderRecord v with
      | none => rfl
      | some w => simp [ih h']

theorem loadHistory_null (H : Host) (data : Store)
    (h : JsonValue.null ∈
      collectRecords H data ((ownKeys data).filter (fun k => startsWith k "garbage:"))) :
    loadHistory H data = .error := by
  unfold loadHistory storage.list
  simp only
  have hk : ((ownKeys data).filter (fun k => startsWith k "garbage:")).length ≠ 0 := by
    intro e
    rw [List.length_eq_zero.mp e] at h
    simp [collectRecords] at h
  rw [if_neg hk]
  cases hs : sortRecords H
      (collectRecords H data ((ownKeys data).filter (fun k => startsWith k "garbage:"))) with
  | none => rfl
  | some s =>
    have hmem : JsonValue.null ∈ s := (sortRecords_perm H _ s hs).mem_iff.mpr h
    have hlen : s.length ≠ 0 := fun e => by
      rw [List.length_eq_zero.mp e] at hmem; simp at hmem
    simp only [hlen, ↓reduceIte, renderAll_null s hmem]

theorem loadHistory_grid_perm (H : Host) (data : Store) (items : List JsonValue)
    (h : loadHistory H data = .grid items) :
    items.Perm
      (collectRecords H data ((ownKeys data).filter (fun k => startsWith k "garbage:"))) := by
  unfold loadHistory storage.list at h
  simp only at h
  split at h
  · simp at h
  · split at h
    · simp at h
    · rename_i s hs
      split at h
      · simp at h
      · split at h
        · simp at h
        · rename_i items' hr
          have hi : items' = items := by simpa using h
          rw [← hi, renderAll_eq s items' hr]
          exact sortRecords_perm H _ s hs

theorem loadHistory_ne_empty (H : Host) (data : Store) (v : JsonValue)
    (hv : v ∈
      collectRecords H data ((ownKeys data).filter (fun k => startsWith k "garbage:"))) :
    loadHistory H data ≠ .empty := by
  unfold loadHistory storage.list
  simp only
  have hk : ((ownKeys data).filter (fun k => startsWith k "garbage:")).length ≠ 0 := by
    intro e
    rw [List.length_eq_zero.mp e] at hv
    simp [collectRecords] at hv
  rw [if_neg hk]
  cases hs : sortRecords H
      (collectRecords H data ((ownKeys data).filter (fun k => startsWith k "garbage:"))) with
  | none => simp
  | some s =>
    have hmem : v ∈ s := (sortRecords_perm H _ s hs).mem_iff.mpr hv
    have hlen : s.length ≠ 0 := fun e => by
      rw [List.length_eq_zero.mp e] at hmem; simp at hmem
    simp only [hlen, ↓reduceIte]
    cases renderAll s with
    | none => simp
    | some items => simp

theorem eq_map_toJson_of_records (l : List JsonValue)
    (h : ∀ v ∈ l, ∃ r : Record, v = r.toJson) : ∃ rs : List Record, l = rs.map Record.toJson := by
  induction l with
  | nil => exact ⟨[], rfl⟩
  | cons v l ih =>
    obtain ⟨rs, hrs⟩ := ih (fun w hw => h w (List.mem_cons_of_mem _ hw))
    obtain ⟨r, hr⟩ := h v (List.mem_cons_self _ _)
    exact ⟨r :: rs, by rw [hrs, hr]; rfl⟩

/-! ## The claims -/

/-- C1: for all degrees, minutes and seconds, `convertDMSToDD` returns
`degrees + minutes/60 + seconds/3600` for the directions `N` and `E` and the negation of
that value for `S` and `W`; the `S` result is the negated `N` result and the `W` result
the negated `E` result; 40°26′46″ N is `40 + 26/60 + 46/3600`, within `1e-6` of
`40.446111`. -/
theorem convertDMSToDD_formula (d m s : ℚ) :
    convertDMSToDD d m s "N" = d + m / 60 + s / 3600 ∧
    convertDMSToDD d m s "E" = d + m / 60 + s / 3600 ∧
    convertDMSToDD d m s "S" = -(d + m / 60 + s / 3600) ∧
    convertDMSToDD d m s "W" = -(d + m / 60 + s / 3600) ∧
    convertDMSToDD d m s "S" = -convertDMSToDD d m s "N" ∧
    convertDMSToDD d m s "W" = -convertDMSToDD d m s "E" ∧
    convertDMSToDD 40 26 46 "N" = 40 + 26 / 60 + 46 / 3600 ∧
    |convertDMSToDD 40 26 46 "N" - 40.446111| < 1 / 1000000 := by
  have hN : convertDMSToDD d m s "N" = d + m / 60 + s / 3600 := by
    simp [convertDMSToDD]; norm_num
  have hE : convertDMSToDD d m s "E" = d + m / 60 + s / 3600 := by
    simp [convertDMSToDD]; norm_num
  have hS : convertDMSToDD d m s "S" = -(d + m / 60 + s / 3600) := by
    simp [convertDMSToDD]; norm_num
  have hW : convertDMSToDD d m s "W" = -(d + m / 60 + s / 3600) := by
    simp [convertDMSToDD]; norm_num
  refine ⟨hN, hE, hS, hW, by rw [hS, hN], by rw [hW, hE], ?_, ?_⟩
  · simp [convertDMSToDD]; norm_num
  · have h40 : convertDMSToDD 40 26 46 "N" = 40 + 26 / 60 + 46 / 3600 := by
      simp [convertDMSToDD]; norm_num
    rw [h40, abs_lt]
    constructor <;> norm_num

/-- C2: with all four GPS tags present the resolved coordinates are `convertDMSToDD` of
each triple with its reference, whatever the device would answer, and the device is not
queried; with a tag missing and a device position, the resolved coordinates are the
reported latitude and longitude unchanged; no location is set exactly when a tag is
missing and the device fails or geolocation is unsupported. -/
theorem handleFile_resolution :
    (∀ (latArr lonArr : ℚ × ℚ × ℚ) (latRef lonRef : Char) (device : DeviceOutcome),
      handleFile ⟨some latArr, some lonArr, some latRef, some lonRef⟩ device =
        { location := some
            { latitude := convertDMSToDD latArr.1 latArr.2.1 latArr.2.2
                (String.singleton latRef),
              longitude := convertDMSToDD lonArr.1 lonArr.2.1 lonArr.2.2
                (String.singleton lonRef) },
          source := some .gps, queried := false }) ∧
    (∀ (tags : GPSTags) (lat lon : ℚ),
      (tags.GPSLatitude = none ∨ tags.GPSLongitude = none ∨ tags.GPSLatitudeRef = none ∨
        tags.GPSLongitudeRef = none) →
      handleFile tags (.position lat lon) =
        { location := some { latitude := lat, longitude := lon }, source := some .device,
          queried := true }) ∧
    (∀ (tags : GPSTags) (device : DeviceOutcome),
      (handleFile tags device).location = none ↔
        ((tags.GPSLatitude = none ∨ tags.GPSLongitude = none ∨ tags.GPSLatitudeRef = none ∨
          tags.GPSLongitudeRef = none) ∧
         (device = .failed ∨ device = .unsupported))) := by
  refine ⟨fun _ _ _ _ _ => rfl, ?_, ?_⟩
  · rintro ⟨a, b, c, d⟩ lat lon h
    cases a <;> cases b <;> cases c <;> cases d <;> simp_all [handleFile, displayLocation]
  · rintro ⟨a, b, c, d⟩ device
    cases a <;> cases b <;> cases c <;> cases d <;> cases device <;>
      simp [handleFile, displayLocation]

/-- Instance of C2: a file without `GPSLatitude` and a device reporting (40, -74). -/
theorem handleFile_resolution_witness :
    handleFile ⟨none, some (74, 0, 21), some 'N', some 'W'⟩ (.position 40 (-74)) =
      { location := some { latitude := 40, longitude := -74 }, source := some .device,
        queried := true } :=
  handleFile_resolution.2.1 ⟨none, some (74, 0, 21), some 'N', some 'W'⟩ 40 (-74)
    (Or.inl rfl)

/-- C3 (defect): storing the empty string under the key `k` succeeds and `list` reports the
key, yet the following `get` rejects with 'Key not found' instead of returning the value;
with the non-empty value `v` the same `get` returns it. -/
theorem get_after_set_empty_string :
    storage.set [] "k" "" = .ok ([("k", "")], { key := "k", value := "" }) ∧
    storage.list [("k", "")] "k" = .ok { keys := ["k"] } ∧
    storage.get [("k", "")] "k" = .error "Key not found" ∧
    storage.get (assign [] "k" "v") "k" = .ok { key := "k", value := .string "v" } := by
  refine ⟨rfl, rfl, rfl, get_after_set [] "k" "v" (by decide) (by decide)⟩

/-- C4: `list(p)` succeeds, and its keys are the stored keys that start with `p`, in
stored order: a key is returned exactly when it is stored and has `p` as a leading
substring. -/
theorem list_returns_exactly_matching_keys (data : Store) (p : String) :
    ∃ keys, storage.list data p = .ok { keys := keys } ∧
      keys.Sublist (ownKeys data) ∧
      ∀ k, k ∈ keys ↔ (k ∈ ownKeys data ∧ p.data <+: k.data) := by
  refine ⟨(ownKeys data).filter (fun k => startsWith k p), rfl, List.filter_sublist _, ?_⟩
  intro k
  rw [List.mem_filter, startsWith_iff]

/-- C5: when the save handler runs with a pending image and location at clock readings
`now1` (for the id) and `now2` (for the timestamp), and the JSON text of the record is
non-empty and parses back to the record, it persists the record, and the records
`loadHistory` then collects contain one whose id is the decimal rendering of `now1` and
whose image, latitude, longitude and timestamp are the saved values; when every collected
value is a record the rendered listing contains it, any listing rendered contains it, and
the view is never the empty state. -/
theorem save_then_loadHistory (H : Host) (data : Store) (image : String) (loc : Location)
    (now1 now2 : Nat) (himg : image ≠ "")
    (hne : H.stringify (buildRecord image loc now1 now2) ≠ "")
    (hrt : H.parse (H.stringify (buildRecord image loc now1 now2)) =
      some (buildRecord image loc now1 now2).toJson) :
    ∃ data' keys r,
      saveBtnClick H { currentImage := some image, currentLocation := some loc } data
        now1 now2 = (data', .saved) ∧
      storage.list data' "garbage:" = .ok { keys := keys } ∧
      Record.toJson r ∈ collectRecords H data' keys ∧
      r.id = Nat.repr now1 ∧ r.image = image ∧ r.latitude = loc.latitude ∧
      r.longitude = loc.longitude ∧ r.timestamp = (now2 : Int) ∧
      ((∀ v ∈ collectRecords H data' keys, ∃ r' : Record, v = r'.toJson) →
        ∃ rs, loadHistory H data' = .grid rs ∧ Record.toJson r ∈ rs) ∧
      (∀ rs, loadHistory H data' = .grid rs → Record.toJson r ∈ rs) ∧
      loadHistory H data' ≠ .empty := by
  have hkey : "garbage:" ++ Nat.repr now1 ≠ "__proto__" := garbage_ne_proto _
  have hlook := lookup_assign_self data ("garbage:" ++ Nat.repr now1)
    (H.stringify (buildRecord image loc now1 now2)) (Or.inl hkey)
  have hmem : (buildRecord image loc now1 now2).toJson ∈
      collectRecords H
        (assign data ("garbage:" ++ Nat.repr now1)
          (H.stringify (buildRecord image loc now1 now2)))
        ((ownKeys (assign data ("garbage:" ++ Nat.repr now1)
          (H.stringify (buildRecord image loc now1 now2)))).filter
            (fun k => startsWith k "garbage:")) := by
    unfold collectRecords
    rw [List.mem_filterMap]
    refine ⟨"garbage:" ++ Nat.repr now1, ?_, ?_⟩
    · rw [List.mem_filter]
      exact ⟨(ownKeys_assign _ _ _ _ (Or.inl hkey)).mpr (Or.inl rfl), startsWith_garbage _⟩
    · rw [loadRecord_of_lookup_nonempty H _ _ _ hlook hne, hrt]
  refine ⟨_, _, buildRecord image loc now1 now2, ?_, rfl, hmem, rfl, rfl, rfl, rfl, rfl,
    ?_, ?_, loadHistory_ne_empty H _ _ hmem⟩
  · simp [saveBtnClick, himg, storage.set, buildRecord]
  · intro hall
    have hrs : ∃ rs : List Record,
        collectRecords H
          (assign data ("garbage:" ++ Nat.repr now1)
            (H.stringify (buildRecord image loc now1 now2)))
          ((ownKeys (assign data ("garbage:" ++ Nat.repr now1)
            (H.stringify (buildRecord image loc now1 now2)))).filter
              (fun k => startsWith k "garbage:")) = rs.map Record.toJson :=
      eq_map_toJson_of_records _ hall
    obtain ⟨rs, hrs⟩ := hrs
    have hr : buildRecord image loc now1 now2 ∈ rs := by
      rw [hrs] at hmem
      exact mem_map_toJson _ _ hmem
    have hne' : rs ≠ [] := List.ne_nil_of_mem hr
    refine ⟨_, ?_, List.mem_map_of_mem Record.toJson
      ((insertionSort_newest_perm rs).mem_iff.mpr hr)⟩
    rw [loadHistory_of_records H _ rs hrs, if_neg hne']
  · intro rs hgrid
    exact (loadHistory_grid_perm H _ rs hgrid).mem_iff.mpr hmem

/-- Instance of C5: saving the image `data:,a` at (1, 2) at clock reading 100 into the
example store. -/
theorem save_then_loadHistory_witness :
    ∃ data' keys r,
      saveBtnClick sampleHost
        { currentImage := some "data:,a", currentLocation := some ⟨1, 2⟩ } sampleStore
        100 100 = (data', .saved) ∧
      storage.list data' "garbage:" = .ok { keys := keys } ∧
      Record.toJson r ∈ collectRecords sampleHost data' keys ∧
      r.id = Nat.repr 100 ∧ r.image = "data:,a" ∧ r.latitude = 1 ∧
      r.longitude = 2 ∧ r.timestamp = ((100 : Nat) : Int) ∧
      ((∀ v ∈ collectRecords sampleHost data' keys, ∃ r' : Record, v = r'.toJson) →
        ∃ rs, loadHistory sampleHost data' = .grid rs ∧ Record.toJson r ∈ rs) ∧
      (∀ rs, loadHistory sampleHost data' = .grid rs → Record.toJson r ∈ rs) ∧
      loadHistory sampleHost data' ≠ .empty :=
  save_then_loadHistory sampleHost sampleStore "data:,a" ⟨1, 2⟩ 100 100 (by decide)
    (by decide) rfl

/-- C6 (as stated, refuted): a stored payload whose JSON text is the empty object parses to
an object without a timestamp; the comparator then yields `NaN` against either neighbour,
the sort leaves the array as it is, and the listing shows the record of timestamp 100
before the record of timestamp 300. -/
theorem loadHistory_empty_object_unsorted :
    collectRecords sampleHost emptyObjectStore ["garbage:100", "garbage:7", "garbage:300"] =
      [record100.toJson, .object [], record300.toJson] ∧
    compareFn sampleHost record100.toJson (.object []) = some .nan ∧
    compareFn sampleHost (.object []) record300.toJson = some .nan ∧
    loadHistory sampleHost emptyObjectStore =
      .grid [record100.toJson, .object [], record300.toJson] ∧
    record100.timestamp < record300.timestamp := by
  refine ⟨rfl, rfl, rfl, rfl, by decide⟩

/-- C6 (amended): when every payload `loadHistory` parses is a record, the sort succeeds
and the sequence it produces is a permutation of the parsed records ordered by
non-increasing timestamp; that sequence is what `loadHistory` renders (the empty state
when there is no record). -/
theorem loadHistory_newest_first (H : Host) (data : Store) (keys : List String)
    (rs : List Record) (hk : storage.list data "garbage:" = .ok { keys := keys })
    (h : collectRecords H data keys = rs.map Record.toJson) :
    ∃ sorted : List Record,
      sortRecords H (collectRecords H data keys) = some (sorted.map Record.toJson) ∧
      sorted.Perm rs ∧
      sorted.Sorted (fun a b : Record => b.timestamp ≤ a.timestamp) ∧
      (rs = [] → loadHistory H data = .empty) ∧
      (rs ≠ [] → loadHistory H data = .grid (sorted.map Record.toJson)) := by
  have hkeys : keys = (ownKeys data).filter (fun k => startsWith k "garbage:") := by
    simp only [storage.list, Except.ok.injEq, ListResult.mk.injEq] at hk
    exact hk.symm
  subst hkeys
  refine ⟨rs.insertionSort (fun x y : Record => y.timestamp ≤ x.timestamp), ?_,
    insertionSort_newest_perm rs, insertionSort_newest_sorted rs, ?_, ?_⟩
  · rw [h]; exact sortRecords_record H rs
  · intro hr; rw [loadHistory_of_records H data rs h, if_pos hr]
  · intro hr; rw [loadHistory_of_records H data rs h, if_neg hr]

/-- Instance of the amended C6: the example store holds records with timestamps 100, 300,
200 (and one payload that is not JSON text); they are listed in the order 300, 200, 100. -/
theorem loadHistory_newest_first_witness :
    (∃ sorted : List Record,
      sortRecords sampleHost (collectRecords sampleHost sampleStore
        ["garbage:100", "garbage:300", "garbage:bad", "garbage:200"]) =
          some (sorted.map Record.toJson) ∧
      sorted.Perm [record100, record300, record200] ∧
      sorted.Sorted (fun a b : Record => b.timestamp ≤ a.timestamp) ∧
      ([record100, record300, record200] = [] → loadHistory sampleHost sampleStore = .empty) ∧
      ([record100, record300, record200] ≠ [] →
        loadHistory sampleHost sampleStore = .grid (sorted.map Record.toJson))) ∧
    loadHistory sampleHost sampleStore =
      .grid [record300.toJson, record200.toJson, record100.toJson] :=
  ⟨loadHistory_newest_first sampleHost sampleStore
      ["garbage:100", "garbage:300", "garbage:bad", "garbage:200"]
      [record100, record300, record200] rfl rfl,
    by with_unfolding_all rfl⟩

/-- C7 (defect): a stored payload whose JSON text is `null` parses without error, so the
inner `catch` does not exclude it; rendering then throws and the whole listing ends in
the error state although the other payload is a valid record. A payload that is not JSON
text, by contrast, is excluded alone. -/
theorem loadHistory_null_payload_fails :
    collectRecords sampleHost nullPayloadStore ["garbage:100", "garbage:7"] =
      [record100.toJson, .null] ∧
    loadHistory sampleHost nullPayloadStore = .error ∧
    loadHistory sampleHost [("garbage:100", payload100), ("garbage:7", "not json")] =
      .grid [record100.toJson] := by
  refine ⟨rfl, loadHistory_null sampleHost nullPayloadStore ?_, rfl⟩
  have h : collectRecords sampleHost nullPayloadStore
      ((ownKeys nullPayloadStore).filter (fun k => startsWith k "garbage:")) =
      [record100.toJson, .null] := rfl
  rw [h]
  exact List.mem_cons_of_mem _ (List.mem_cons_self _ _)

/-- C8: a confirmed `deleteRecord(id)` deletes `"garbage:" + id` and reloads the history:
the stored keys are the prior keys without that key, every other key keeps its value,
`get` of that key rejects with 'Key not found', and the keys the reload reads exclude
that key, the records it collects being those the prior store holds under the remaining
keys. -/
theorem deleteRecord_removes_key (H : Host) (data : Store) (id : String) :
    ∃ data' keys keys',
      deleteRecord H data id true = (data', some (loadHistory H data'), .deleted) ∧
      ownKeys data' = (ownKeys data).filter (fun k => decide (k ≠ "garbage:" ++ id)) ∧
      (∀ k, k ≠ "garbage:" ++ id → data'.lookup k = data.lookup k) ∧
      storage.get data' ("garbage:" ++ id) = .error "Key not found" ∧
      storage.list data "garbage:" = .ok { keys := keys } ∧
      storage.list data' "garbage:" = .ok { keys := keys' } ∧
      keys' = keys.filter (fun k => decide (k ≠ "garbage:" ++ id)) ∧
      "garbage:" ++ id ∉ keys' ∧
      collectRecords H data' keys' = collectRecords H data keys' := by
  have hfilter : (ownKeys (deleteProperty data ("garbage:" ++ id))).filter
      (fun k => startsWith k "garbage:") =
      ((ownKeys data).filter (fun k => startsWith k "garbage:")).filter
        (fun k => decide (k ≠ "garbage:" ++ id)) := by
    rw [ownKeys_deleteProperty, List.filter_filter, List.filter_filter]
    apply List.filter_congr
    intro k _
    exact Bool.and_comm _ _
  refine ⟨deleteProperty data ("garbage:" ++ id), _, _, rfl, ownKeys_deleteProperty _ _,
    fun k hk => lookup_deleteProperty_other data _ k hk,
    get_absent _ _ (lookup_deleteProperty_self data _) (garbage_not_inherited id),
    rfl, rfl, hfilter, ?_, ?_⟩
  · rw [hfilter]
    intro hmem
    have := (List.mem_filter.mp hmem).2
    simp at this
  · unfold collectRecords
    apply List.filterMap_congr
    intro k hk
    rw [hfilter] at hk
    have hne : k ≠ "garbage:" ++ id := by
      have := (List.mem_filter.mp hk).2
      simpa using this
    exact loadRecord_of_lookup_eq H _ _ k (lookup_deleteProperty_other data _ k hne)

/-- C9: `delete(key)` succeeds for every store and key with `{ key, deleted: true }`;
afterwards the key is not stored; when the key was absent the store is unchanged; a second
`delete` of the same key succeeds again and leaves the store as the first one left it. -/
theorem delete_never_fails (data : Store) (key : String) :
    ∃ data', storage.delete data key = .ok (data', { key := key, deleted := true }) ∧
      key ∉ ownKeys data' ∧
      (key ∉ ownKeys data → data' = data) ∧
      storage.delete data' key = .ok (data', { key := key, deleted := true }) := by
  have hnot : key ∉ ownKeys (deleteProperty data key) := by
    rw [ownKeys_deleteProperty]
    intro hmem
    have := (List.mem_filter.mp hmem).2
    simp at this
  refine ⟨deleteProperty data key, rfl, hnot, deleteProperty_of_not_mem data key, ?_⟩
  unfold storage.delete
  rw [deleteProperty_of_not_mem _ key hnot]

/-- Instance of C9: deleting the absent key `garbage:999` from the example store. -/
theorem delete_never_fails_witness :
    ∃ data', storage.delete sampleStore "garbage:999" =
        .ok (data', { key := "garbage:999", deleted := true }) ∧
      "garbage:999" ∉ ownKeys data' ∧
      ("garbage:999" ∉ ownKeys sampleStore → data' = sampleStore) ∧
      storage.delete data' "garbage:999" =
        .ok (data', { key := "garbage:999", deleted := true }) :=
  delete_never_fails sampleStore "garbage:999"

/-- C10 (as stated, refuted): two saves at the same clock reading 100, of different
images, build different records with the same id; the second save overwrites the payload
of the first, and the listing afterwards holds the second record only. -/
theorem saves_at_same_reading_collide :
    buildRecord "data:,a" ⟨1, 2⟩ 100 100 ≠ buildRecord "data:,b" ⟨1, 2⟩ 100 100 ∧
    (buildRecord "data:,a" ⟨1, 2⟩ 100 100).id = (buildRecord "data:,b" ⟨1, 2⟩ 100 100).id ∧
    saveBtnClick sampleHost { currentImage := some "data:,a", currentLocation := some ⟨1, 2⟩ }
      [] 100 100 = ([("garbage:100", payload100)], .saved) ∧
    saveBtnClick sampleHost { currentImage := some "data:,b", currentLocation := some ⟨1, 2⟩ }
      [("garbage:100", payload100)] 100 100 = ([("garbage:100", payload100b)], .saved) ∧
    loadHistory sampleHost [("garbage:100", payload100b)] = .grid [record100b.toJson] := by
  refine ⟨by decide, by decide, by decide, by decide, rfl⟩

/-- C10 (amended): each save stores its record under `"garbage:"` followed by the record's
own id; two saves whose id clock readings differ build records with distinct ids and
distinct keys, and after both saves each payload is stored under its own key, neither
having replaced the other. -/
theorem saves_at_distinct_readings_coexist (H : Host) (data : Store)
    (imageA imageB : String) (locA locB : Location) (nowA nowA2 nowB nowB2 : Nat)
    (hA : imageA ≠ "") (hB : imageB ≠ "") (hne : nowA ≠ nowB) :
    ∃ data1 data2,
      saveBtnClick H { currentImage := some imageA, currentLocation := some locA } data
        nowA nowA2 = (data1, .saved) ∧
      saveBtnClick H { currentImage := some imageB, currentLocation := some locB } data1
        nowB nowB2 = (data2, .saved) ∧
      (buildRecord imageA locA nowA nowA2).id ≠ (buildRecord imageB locB nowB nowB2).id ∧
      data1.lookup ("garbage:" ++ (buildRecord imageA locA nowA nowA2).id) =
        some (H.stringify (buildRecord imageA locA nowA nowA2)) ∧
      data2.lookup ("garbage:" ++ (buildRecord imageA locA nowA nowA2).id) =
        some (H.stringify (buildRecord imageA locA nowA nowA2)) ∧
      data2.lookup ("garbage:" ++ (buildRecord imageB locB nowB nowB2).id) =
        some (H.stringify (buildRecord imageB locB nowB nowB2)) := by
  have hid : Nat.repr nowA ≠ Nat.repr nowB := fun e => hne (repr_injective _ _ e)
  have hkey : "garbage:" ++ Nat.repr nowA ≠ "garbage:" ++ Nat.repr nowB :=
    fun e => hid (garbage_injective _ _ e)
  refine ⟨assign data ("garbage:" ++ Nat.repr nowA)
      (H.stringify (buildRecord imageA locA nowA nowA2)),
    assign (assign data ("garbage:" ++ Nat.repr nowA)
      (H.stringify (buildRecord imageA locA nowA nowA2))) ("garbage:" ++ Nat.repr nowB)
      (H.stringify (buildRecord imageB locB nowB nowB2)), ?_, ?_, hid, ?_, ?_, ?_⟩
  · simp [saveBtnClick, hA, storage.set, buildRecord]
  · simp [saveBtnClick, hB, storage.set, buildRecord]
  · exact lookup_assign_self _ _ _ (Or.inl (garbage_ne_proto _))
  · exact (lookup_assign_other _ _ _ _ hkey).trans
      (lookup_assign_self _ _ _ (Or.inl (garbage_ne_proto _)))
  · exact lookup_assign_self _ _ _ (Or.inl (garbage_ne_proto _))

/-- Instance of the amended C10: saves at clock readings 100 and 300 into the empty store. -/
theorem saves_at_distinct_readings_coexist_witness :
    ∃ data1 data2,
      saveBtnClick sampleHost { currentImage := some "data:,a", currentLocation := some ⟨1, 2⟩ }
        [] 100 100 = (data1, .saved) ∧
      saveBtnClick sampleHost
        { currentImage := some "data:,b", currentLocation := some ⟨3, -4⟩ } data1
        300 300 = (data2, .saved) ∧
      (buildRecord "data:,a" ⟨1, 2⟩ 100 100).id ≠ (buildRecord "data:,b" ⟨3, -4⟩ 300 300).id ∧
      data1.lookup ("garbage:" ++ (buildRecord "data:,a" ⟨1, 2⟩ 100 100).id) =
        some (sampleHost.stringify (buildRecord "data:,a" ⟨1, 2⟩ 100 100)) ∧
      data2.lookup ("garbage:" ++ (buildRecord "data:,a" ⟨1, 2⟩ 100 100).id) =
        some (sampleHost.stringify (buildRecord "data:,a" ⟨1, 2⟩ 100 100)) ∧
      data2.lookup ("garbage:" ++ (buildRecord "data:,b" ⟨3, -4⟩ 300 300).id) =
        some (sampleHost.stringify (buildRecord "data:,b" ⟨3, -4⟩ 300 300)) :=
  saves_at_distinct_readings_coexist sampleHost [] "data:,a" "data:,b" ⟨1, 2⟩ ⟨3, -4⟩
    100 100 300 300 (by decide) (by decide) (by decide)

end GTracker
